import Mathlib

/-!
Verification development for the geointel proxy/fetch/merge core
(`src/geointel_optimized.py`).

The Python source is shallowly embedded: responses become a `Response`
structure, JSON-like Python values become `PyVal`, dictionaries become
association lists, network effects become oracle functions passed as
parameters, and the file system becomes an `Option` of file contents.
Definitions mirror the structure of the source functions and keep their
names.  Definitions whose names start with `spec` are written from the
natural-language specification instead, for comparison against the code.
-/

/-! ## String helpers

Python's `in` operator on strings is substring containment; `str.lower`
maps characters to lower case.  Both are modelled over `List Char` so that
they evaluate inside the kernel.
-/

/-- Substring test over character lists: `needle` occurs contiguously in
`haystack`.  Models Python's `needle in haystack` for strings. -/
def listIsInfixOf (needle : List Char) : List Char → Bool
  | [] => needle.isEmpty
  | c :: rest => needle.isPrefixOf (c :: rest) || listIsInfixOf needle rest

/-- Substring containment on `String`, via `listIsInfixOf`. -/
def strContains (haystack needle : String) : Bool :=
  listIsInfixOf needle.toList haystack.toList

/-! ## HTTP responses and the Cloudflare challenge classifier -/

/-- An HTTP response as used by the source: a numeric status code and a
body text (`requests.Response.status_code` / `.text`). -/
structure Response where
  status_code : Nat
  text : String
deriving DecidableEq

/-- Model of `is_cloudflare_challenge` (geointel_optimized.py:195-210).
`Option.none` models a `None` argument; the sequence of `if`s mirrors the
source.  The source's `response.text or ""` cannot yield `None` here since
bodies are total strings. -/
def is_cloudflare_challenge : Option Response → Bool
  | Option.none => false
  | some r =>
    let text := r.text
    let status_code := r.status_code
    if (status_code = 403 || status_code = 503 || status_code = 520 || status_code = 521) &&
        (strContains text "cf-mitigation" || strContains text "cf-browser-verification") then
      true
    else if strContains text "Just a moment..." || strContains text "DDoS protection by Cloudflare" ||
        strContains text "Checking your browser before accessing" || strContains text "Attention Required!" then
      true
    else if strContains text "Cloudflare" && decide (400 ≤ status_code) then
      true
    else
      false

/-- `IsChallenge(statusCode, bodyText)` written from the specification's
three ordered rules (spec §4.3): any rule matching gives `true`. -/
def specIsChallenge (statusCode : Nat) (bodyText : String) : Bool :=
  (decide (statusCode ∈ ([403, 503, 520, 521] : List Nat)) &&
    (strContains bodyText "cf-mitigation" || strContains bodyText "cf-browser-verification")) ||
  ((strContains bodyText "Just a moment..." || strContains bodyText "DDoS protection by Cloudflare" ||
    strContains bodyText "Checking your browser before accessing" || strContains bodyText "Attention Required!") ||
  (strContains bodyText "Cloudflare" && decide (400 ≤ statusCode)))

/-! ## Resilient fetch engine (`requests_with_optional_proxy`)

The network is modelled by oracles: `direct : Option Response` is the
outcome of the one direct request (`Option.none` models a
`requests.RequestException`), and `fetchViaProxy : String → Option Response`
gives the outcome of a cloudscraper request through a given proxy
(`Option.none` models a raised exception).  `random.shuffle` is modelled by
taking the shuffled list as a parameter constrained to be a permutation of
the proxy list. -/

/-- The acceptance test the source applies to a response:
`200 <= status_code < 300 and not is_cloudflare_challenge(r)`. -/
def acceptable (r : Response) : Bool :=
  (decide (200 ≤ r.status_code) && decide (r.status_code < 300)) && !is_cloudflare_challenge (some r)

/-- Whether an attempt through proxy `p` yields an acceptable response. -/
def proxySuccess (fetchViaProxy : String → Option Response) (p : String) : Bool :=
  match fetchViaProxy p with
  | some r => acceptable r
  | Option.none => false

/-- The proxy-rotation loop of `requests_with_optional_proxy`
(geointel_optimized.py:229-245): return the first acceptable proxy
response; on exception, challenge, rate-limit status or any other
unacceptable response, continue with the next proxy (in the source both
the explicit `continue` branches and the fall-through reach the next
iteration). -/
def proxyLoop (fetchViaProxy : String → Option Response) : List String → Option Response
  | [] => Option.none
  | p :: rest =>
    match fetchViaProxy p with
    | some r2 => if acceptable r2 then some r2 else proxyLoop fetchViaProxy rest
    | Option.none => proxyLoop fetchViaProxy rest

/-- The proxies the loop actually attempts, in order: every proxy up to
and including the first successful one. -/
def proxyAttempts (fetchViaProxy : String → Option Response) : List String → List String
  | [] => []
  | p :: rest =>
    if proxySuccess fetchViaProxy p then [p] else p :: proxyAttempts fetchViaProxy rest

/-- Model of `requests_with_optional_proxy` (geointel_optimized.py:215-250):
one direct attempt, immediate return when acceptable, otherwise the proxy
rotation, and finally the source's fallback `return r if it had 2xx`. -/
def requests_with_optional_proxy (direct : Option Response)
    (fetchViaProxy : String → Option Response) (shuffled : List String) : Option Response :=
  match direct with
  | some r =>
    if acceptable r then some r
    else
      match proxyLoop fetchViaProxy shuffled with
      | some r2 => some r2
      | Option.none =>
        if decide (200 ≤ r.status_code) && decide (r.status_code < 300) then some r else Option.none
  | Option.none =>
    match proxyLoop fetchViaProxy shuffled with
    | some r2 => some r2
    | Option.none => Option.none

/-- One network attempt of a fetch call, for stating ordering properties. -/
inductive Attempt where
  | direct
  | viaProxy (p : String)
deriving DecidableEq

/-- The proxies tried by one call of `requests_with_optional_proxy`. -/
def proxiesTried (direct : Option Response) (fetchViaProxy : String → Option Response)
    (shuffled : List String) : List String :=
  match direct with
  | some r => if acceptable r then [] else proxyAttempts fetchViaProxy shuffled
  | Option.none => proxyAttempts fetchViaProxy shuffled

/-- The full attempt trace of one call: the direct attempt, then the
proxies tried. -/
def fetchTrace (direct : Option Response) (fetchViaProxy : String → Option Response)
    (shuffled : List String) : List Attempt :=
  Attempt.direct :: (proxiesTried direct fetchViaProxy shuffled).map Attempt.viaProxy

/-- The contract claimed for the fetch operation: the trace starts with
exactly one direct attempt; an acceptable direct response is returned with
no proxy tried, and (given a nonempty proxy list) proxies are tried exactly
when the direct attempt is unacceptable; the tried proxies are a prefix of
the shuffled order, without repetition; all tried proxies except the last
failed; a tried proxy's acceptable response is the call's result; and when
the direct attempt is unacceptable and no proxy succeeds, every proxy is
tried. -/
def fetcherContract (direct : Option Response) (fetchViaProxy : String → Option Response)
    (shuffled : List String) : Prop :=
  (fetchTrace direct fetchViaProxy shuffled).head? = some Attempt.direct ∧
  (fetchTrace direct fetchViaProxy shuffled).count Attempt.direct = 1 ∧
  (∀ r, direct = some r → acceptable r = true →
    requests_with_optional_proxy direct fetchViaProxy shuffled = some r ∧
    proxiesTried direct fetchViaProxy shuffled = []) ∧
  (shuffled ≠ [] → proxiesTried direct fetchViaProxy shuffled = [] →
    ∃ r, direct = some r ∧ acceptable r = true) ∧
  proxiesTried direct fetchViaProxy shuffled <+: shuffled ∧
  (proxiesTried direct fetchViaProxy shuffled).Nodup ∧
  (∀ p ∈ (proxiesTried direct fetchViaProxy shuffled).dropLast,
    proxySuccess fetchViaProxy p = false) ∧
  (∀ p r, p ∈ proxiesTried direct fetchViaProxy shuffled → fetchViaProxy p = some r →
    acceptable r = true → requests_with_optional_proxy direct fetchViaProxy shuffled = some r) ∧
  ((∀ r, direct = some r → acceptable r = false) →
    (∀ p ∈ shuffled, proxySuccess fetchViaProxy p = false) →
    proxiesTried direct fetchViaProxy shuffled = shuffled)

/-! ## Python values and dictionaries -/

/-- A JSON-like Python value: `None`, strings, integers, rationals (for
floats), booleans, and dictionaries as association lists. -/
inductive PyVal where
  | none
  | str (s : String)
  | int (n : Int)
  | rat (q : Rat)
  | bool (b : Bool)
  | dict (fields : List (String × PyVal))

/-- A Python dictionary with string keys. -/
abbrev PyDict := List (String × PyVal)

/-- Lookup of a key, distinguishing an absent key (`Option.none`) from a
stored `None` (`some PyVal.none`); first binding wins. -/
def pgetOpt : PyDict → String → Option PyVal
  | [], _ => Option.none
  | (k, v) :: rest, key => if k = key then some v else pgetOpt rest key

/-- Python's `d.get(key)`: the stored value, or `None` when absent. -/
def pget (d : PyDict) (key : String) : PyVal :=
  (pgetOpt d key).getD PyVal.none

/-- Python's `d.get(key, default)`: the stored value, or `default` when the
key is absent. -/
def pyGetD (d : PyDict) (key : String) (default : PyVal) : PyVal :=
  (pgetOpt d key).getD default

/-- Python truthiness of a value: `None`, `""`, `0`, `False` and `{}` are
falsy, everything else truthy. -/
def pyTruthy : PyVal → Bool
  | PyVal.none => false
  | PyVal.str s => !(s = "")
  | PyVal.int n => !(n = 0)
  | PyVal.rat q => !(q = 0)
  | PyVal.bool b => b
  | PyVal.dict d => !d.isEmpty

/-- Python's `v is None` test. -/
def pyIsNone : PyVal → Bool
  | PyVal.none => true
  | _ => false

/-- Whether the dictionary carries the given key at all (`key in d`). -/
def hasKey (d : PyDict) (key : String) : Bool :=
  (pgetOpt d key).isSome

/-! ## Character-list helpers shared by the merge, persistence and
scraping models -/

/-- Split a character list at every occurrence of `c`; models Python's
`str.split(c)` (also used with `c = '\n'` for line iteration). -/
def splitOnChar (c : Char) : List Char → List (List Char)
  | [] => [[]]
  | x :: xs =>
    let r := splitOnChar c xs
    if x = c then [] :: r else (x :: r.headI) :: r.tail

/-- Python's `keypath.split(".")`, producing strings. -/
def pySplitDot (s : String) : List String :=
  (splitOnChar '.' s.toList).map (fun cs => String.mk cs)

/-! ## Merging geolocation records (`merge_geo_data`) -/

/-- The walk of `get_from` over an already-split dotted path
(geointel_optimized.py:402-407): at each segment, a non-dict current value
short-circuits to `None`, otherwise the segment is looked up. -/
def walkPath : PyVal → List String → PyVal
  | cur, [] => cur
  | cur, part :: rest =>
    match cur with
    | PyVal.dict d => walkPath (pget d part) rest
    | _ => PyVal.none

/-- Model of the nested-key helper `get_from` (geointel_optimized.py:397-407):
`None` for a falsy source or a `None` keypath, a direct `get` for a
dot-free keypath, and the segment walk otherwise. -/
def get_from (source : PyDict) (keypath : Option String) : PyVal :=
  match keypath with
  | Option.none => PyVal.none
  | some kp =>
    if source.isEmpty then PyVal.none
    else if !(strContains kp ".") then pget source kp
    else walkPath (PyVal.dict source) (pySplitDot kp)

/-- The field table of `merge_geo_data` (geointel_optimized.py:383-394):
canonical field name, ip-api key-path, optional ipwho.is key-path. -/
def mapping : List (String × String × Option String) :=
  [("ip", "query", some "ip"),
   ("country", "country", some "country"),
   ("region", "regionName", some "region"),
   ("city", "city", some "city"),
   ("lat", "lat", some "latitude"),
   ("lon", "lon", some "longitude"),
   ("timezone", "timezone", Option.none),
   ("isp", "isp", some "connection.isp"),
   ("org", "org", some "org"),
   ("asn", "as", some "connection.asn")]

/-- Python truthiness of the optional second key-path (`and k2`). -/
def optStrTruthy : Option String → Bool
  | Option.none => false
  | some s => !(s = "")

/-- One field of the merge loop (geointel_optimized.py:409-415): the
primary value when the primary dict is truthy with a non-truthy `error`
entry, else the secondary value under the analogous guard, else `None`. -/
def mergeField (ipapi ipwho : PyDict) (k1 : String) (k2 : Option String) : PyVal :=
  let val1 := if !ipapi.isEmpty && !pyTruthy (pget ipapi "error") then get_from ipapi (some k1)
              else PyVal.none
  if pyIsNone val1 then
    if !ipwho.isEmpty && !pyTruthy (pget ipwho "error") && optStrTruthy k2 then get_from ipwho k2
    else PyVal.none
  else val1

/-- Model of `merge_geo_data` (geointel_optimized.py:379-419): the mapped
canonical fields followed by the two raw-source attachments. -/
def merge_geo_data (ipapi ipwho : PyDict) : PyDict :=
  (mapping.map (fun e => (e.1, mergeField ipapi ipwho e.2.1 e.2.2))) ++
  [("_raw_ipapi", PyVal.dict ipapi), ("_raw_ipwho", PyVal.dict ipwho)]

/-- Spec-side dotted-path resolution (spec §4.5): walk the dotted path
through nested mappings, short-circuiting to null when an intermediate
segment is not a mapping. -/
def specResolve (source : PyDict) (keypath : String) : PyVal :=
  walkPath (PyVal.dict source) (pySplitDot keypath)

/-- Spec-side error marker: the record has a usable-data-excluding `error`
entry.  The source tests Python truthiness of `d.get("error")`, so the
marker is an `error` entry with a truthy value. -/
def hasErrorMarker (d : PyDict) : Bool :=
  pyTruthy (pget d "error")

/-- Spec-side value of a canonical field taken from the secondary record
alone: its key-path's value when a path exists, the secondary has no error
marker and the path resolves to non-null; otherwise null. -/
def specSecondaryValue (secondary : PyDict) (k2 : Option String) : PyVal :=
  match k2 with
  | Option.none => PyVal.none
  | some ks =>
    if !hasErrorMarker secondary && !pyIsNone (specResolve secondary ks) then specResolve secondary ks
    else PyVal.none

/-- Spec-side value of a canonical field (spec §4.5): the primary's value
at its key-path when the primary has no error marker and the path resolves
to non-null; otherwise the secondary's under the same condition; otherwise
null. -/
def specMergeValue (primary secondary : PyDict) (k1 : String) (k2 : Option String) : PyVal :=
  if !hasErrorMarker primary && !pyIsNone (specResolve primary k1) then specResolve primary k1
  else specSecondaryValue secondary k2

/-- Python's `==` between a value and a string literal: true exactly for
an equal string. -/
def pyEqStr : PyVal → String → Bool
  | PyVal.str s, t => s = t
  | _, _ => false

/-! ## Geo API wrapper (`fetch_ipapi`) -/

/-- Model of `fetch_ipapi` (geointel_optimized.py:252-264).  `fetched` is
the result of `requests_with_optional_proxy`; `parse` models `r.json()`,
with `Option.none` for a JSON decoding failure (or a non-dict document,
whose `.get` raises inside the same `try`). -/
def fetch_ipapi (fetched : Option Response) (parse : Response → Option PyDict) : PyDict :=
  match fetched with
  | Option.none => [("error", PyVal.str "No response from ip-api")]
  | some r =>
    match parse r with
    | Option.none => [("error", PyVal.str "Invalid JSON from ip-api")]
    | some data =>
      if pyEqStr (pget data "status") "fail" then
        [("error", pyGetD data "message" (PyVal.str "ip-api error"))]
      else data

/-! ## Proxy verification (`verify_proxy_full`, `verify_proxies`) -/

/-- Model of `verify_proxy_full` (geointel_optimized.py:185-190) with the
two per-candidate checks as oracles: the socket connectivity check
`is_proxy_connectable` and the HTTP forwarding check
`is_proxy_forwarding_http`. -/
def verify_proxy_full (conn fwd : String → Bool) (p : String) : Bool :=
  if conn p then fwd p else false

/-- Whether `verify_proxy_full` reaches its stage-2 forwarding check for a
candidate: only after the connectivity check passed. -/
def forwardCheckAttempted (conn : String → Bool) (p : String) : Bool :=
  conn p

/-- Model of `GeoIntel.verify_proxies` (geointel_optimized.py:340-370):
the worker pool completes the independent per-candidate checks in some
order (`completionOrder`, a permutation of the candidate list), and the
verified list collects, in completion order, the candidates whose combined
check passed. -/
def verify_proxies (conn fwd : String → Bool) (completionOrder : List String) : List String :=
  completionOrder.filter (verify_proxy_full conn fwd)

/-! ## Rate-limit retry loop of `query_geolocation` -/

/-- Python's `str()` of a value, approximately: exact on `None`, strings,
integers and booleans; rationals stand in for floats and dictionaries are
rendered recursively in Python's brace-and-quote style. -/
def pyRepr : PyVal → String
  | PyVal.none => "None"
  | PyVal.str s => "\x27" ++ s ++ "\x27"
  | PyVal.int n => toString n
  | PyVal.rat q => toString q
  | PyVal.bool b => if b then "True" else "False"
  | PyVal.dict d =>
    "\x7b" ++
      String.intercalate ", "
        (d.attach.map (fun x => "\x27" ++ x.1.1 ++ "\x27: " ++ pyRepr x.1.2)) ++
    "\x7d"
termination_by v => sizeOf v
decreasing_by
  obtain ⟨⟨k, v⟩, hx⟩ := x
  have h1 : sizeOf (k, v) < sizeOf d := List.sizeOf_lt_of_mem hx
  simp only [Prod.mk.sizeOf_spec] at h1
  simp only [PyVal.dict.sizeOf_spec]
  omega

/-- Python's `str()` applied as in `str(ipapi.get("error"))`: a string
value prints itself, anything else prints as `pyRepr`. -/
def pyStr : PyVal → String
  | PyVal.str s => s
  | v => pyRepr v

/-- ASCII lower-casing of a character list, modelling `str.lower()`. -/
def lowerChars (cs : List Char) : List Char :=
  cs.map Char.toLower

/-- The rate-limit test of `query_geolocation`
(geointel_optimized.py:439): `"429" in str(ipapi.get("error")).lower()`. -/
def isRateLimit (ipapi : PyDict) : Bool :=
  listIsInfixOf "429".toList (lowerChars (pyStr (pget ipapi "error")).toList)

/-- The initial `ipapi` sentinel of `query_geolocation`
(geointel_optimized.py:424). -/
def initIpapi : PyDict :=
  [("error", PyVal.str "not-run")]

/-- The ip-api retry loop of `query_geolocation`
(geointel_optimized.py:432-446).  `fetchAt i` is the result of the `i`-th
`fetch_ipapi` call (1-based); `stop i` is the cancellation flag as observed
at the loop condition when `tries = i`.  Returns the final `ipapi` value,
the total number of attempts made, and the list of backoff sleeps
performed.  `fuel` is `max_tries - tries`. -/
def retryAux (fetchAt : Nat → PyDict) (stop : Nat → Bool) :
    Nat → Nat → Rat → PyDict → PyDict × Nat × List Rat
  | 0, tries, _, cur => (cur, tries, [])
  | fuel + 1, tries, backoff, cur =>
    if stop tries then (cur, tries, [])
    else
      let r := fetchAt (tries + 1)
      if !pyTruthy (pget r "error") then (r, tries + 1, [])
      else if isRateLimit r then
        let rest := retryAux fetchAt stop fuel (tries + 1) (backoff * 2) r
        (rest.1, rest.2.1, backoff :: rest.2.2)
      else (r, tries + 1, [])

/-- The retry loop as entered by `query_geolocation`: `max_tries = 3`,
`tries = 0`, `backoff = 1.0`, starting from the `not-run` sentinel. -/
def ipapiRetryLoop (fetchAt : Nat → PyDict) (stop : Nat → Bool) : PyDict × Nat × List Rat :=
  retryAux fetchAt stop 3 0 1 initIpapi

/-- The contract claimed for the retry loop: at most 3 attempts; every
attempt after the first is preceded by an attempt whose result was an
error indicating a rate-limit; the sleeps are `1, 2, 4, ...` (a backoff
starting at one time unit and doubling), with one sleep per retry (and at
most one more, the terminal sleep of a rate-limited final attempt); and no
attempt starts at or beyond an iteration whose cancellation check fired. -/
def retryContract (fetchAt : Nat → PyDict) (stop : Nat → Bool) : Prop :=
  (ipapiRetryLoop fetchAt stop).2.1 ≤ 3 ∧
  (∀ i, 1 ≤ i → i < (ipapiRetryLoop fetchAt stop).2.1 →
    pyTruthy (pget (fetchAt i) "error") = true ∧ isRateLimit (fetchAt i) = true) ∧
  (ipapiRetryLoop fetchAt stop).2.2 =
    (List.range (ipapiRetryLoop fetchAt stop).2.2.length).map (fun j => (2 : Rat) ^ j) ∧
  (ipapiRetryLoop fetchAt stop).2.1 - 1 ≤ (ipapiRetryLoop fetchAt stop).2.2.length ∧
  (ipapiRetryLoop fetchAt stop).2.2.length ≤ (ipapiRetryLoop fetchAt stop).2.1 ∧
  (∀ i, stop i = true → (ipapiRetryLoop fetchAt stop).2.1 ≤ i)

/-! ## Proxy persistence (`save_working_proxies`, `load_saved_proxies`) -/

/-- The whitespace set of Python's `str.strip()` (ASCII part). -/
def isPySpace (c : Char) : Bool :=
  c = ' ' || c = '\t' || c = '\n' || c = '\r' || c = '\x0b' || c = '\x0c'

/-- Python's `str.strip()` over a character list. -/
def pyStrip (cs : List Char) : List Char :=
  ((cs.dropWhile isPySpace).reverse.dropWhile isPySpace).reverse

/-- Model of `save_working_proxies` (geointel_optimized.py:115-122): the
written file contents, one proxy per line with a trailing newline each. -/
def save_working_proxies (proxies : List (List Char)) : List Char :=
  (proxies.map (fun p => p ++ ['\n'])).flatten

/-- Model of `load_saved_proxies` (geointel_optimized.py:109-113):
a missing file (`Option.none`) yields `[]`; otherwise each line is
stripped and blank lines are skipped. -/
def load_saved_proxies : Option (List Char) → List (List Char)
  | Option.none => []
  | some content => ((splitOnChar '\n' content).map pyStrip).filter (fun l => !l.isEmpty)

/-! ## Proxy scraping parsers -/

/-- Model of `scrape_proxies_from_plain` (geointel_optimized.py:147-158).
`body` is the fetched text, `Option.none` modelling any request exception
(which the source catches, returning the proxies collected so far, i.e.
none).  Kept lines are the stripped lines that are non-empty and contain a
colon. -/
def scrape_proxies_from_plain : Option (List Char) → List (List Char)
  | Option.none => []
  | some body =>
    ((splitOnChar '\n' body).map pyStrip).filter (fun l => !l.isEmpty && decide (':' ∈ l))

/-- Model of `scrape_proxies_from_html` (geointel_optimized.py:127-145).
`table` is the parsed proxy table as rows of cell texts, `Option.none`
modelling a request failure or an absent table.  For every row after the
header, a row with at least two cells contributes `ip:port` from its first
two (whitespace-stripped, as `get_text(strip=True)`) cells. -/
def scrape_proxies_from_html : Option (List (List (List Char))) → List (List Char)
  | Option.none => []
  | some table =>
    (table.drop 1).filterMap (fun cols =>
      match cols with
      | c0 :: c1 :: _ => some (pyStrip c0 ++ ':' :: pyStrip c1)
      | _ => Option.none)

/-- Numeric value of a digit string. -/
def charsToNat (cs : List Char) : Nat :=
  cs.foldl (fun acc c => 10 * acc + (c.toNat - '0'.toNat)) 0

/-- Modelled from the spec (§3 ProxyAddress invariant): the address parses
into a host and a numeric port in [1, 65535].  Resolvability of the host
is beyond a shallow embedding; the host is required to be non-empty. -/
def specValidProxyAddress (s : List Char) : Bool :=
  match splitOnChar ':' s with
  | [host, port] =>
    !host.isEmpty && !port.isEmpty && port.all Char.isDigit &&
      decide (1 ≤ charsToNat port) && decide (charsToNat port ≤ 65535)
  | _ => false

/-- The exhaustion outcome claimed (amended) for the fetch operation under
an unacceptable direct attempt and universally failing/challenged/
rate-limited proxies: no direct response gives the no-response outcome, a
2xx (necessarily challenged) direct response is returned as the best-known
response, any non-2xx direct response gives the no-response outcome, and
the `fetch_ipapi` wrapper maps the no-response outcome to an error
record. -/
def exhaustionContract (direct : Option Response) (fetchViaProxy : String → Option Response)
    (shuffled : List String) : Prop :=
  (direct = Option.none → requests_with_optional_proxy direct fetchViaProxy shuffled = Option.none) ∧
  (∀ r, direct = some r → 200 ≤ r.status_code → r.status_code < 300 →
    requests_with_optional_proxy direct fetchViaProxy shuffled = some r) ∧
  (∀ r, direct = some r → ¬(200 ≤ r.status_code ∧ r.status_code < 300) →
    requests_with_optional_proxy direct fetchViaProxy shuffled = Option.none) ∧
  (∀ parse, fetch_ipapi Option.none parse = [("error", PyVal.str "No response from ip-api")])

/-! ## Helper lemmas -/

/-- A chain of boolean `if`s returning `true`/`true`/`true`/`false` is the
three-fold disjunction of its conditions. -/
theorem if_chain_eq_or (b1 b2 b3 : Bool) :
    (if b1 then true else if b2 then true else if b3 then true else false) = (b1 || (b2 || b3)) := by
  cases b1 <;> cases b2 <;> cases b3 <;> rfl

/-- Membership of a `Nat` in the four-element status list, as a decided
proposition, is the disjunction of the four equality tests. -/
theorem mem_status_list_eq (n : Nat) :
    (decide (n ∈ ([403, 503, 520, 521] : List Nat))) =
      (n = 403 || n = 503 || n = 520 || n = 521) := by
  simp only [List.mem_cons, List.not_mem_nil, or_false, Bool.decide_or, Bool.or_assoc]

/-- C2: the challenge classifier returns true exactly when one of the
spec's ordered rules matches; a `None` response is never a challenge; and
the three concrete examples from the spec evaluate as stated. -/
theorem is_cloudflare_challenge_spec :
    (∀ (status : Nat) (text : String),
      is_cloudflare_challenge (some ⟨status, text⟩) = specIsChallenge status text) ∧
    is_cloudflare_challenge Option.none = false ∧
    is_cloudflare_challenge (some ⟨503, "Checking your browser before accessing"⟩) = true ∧
    is_cloudflare_challenge (some ⟨200, "hello world"⟩) = false ∧
    is_cloudflare_challenge (some ⟨429, ""⟩) = false := by
  refine ⟨fun status text => ?_, rfl, by decide, by decide, by decide⟩
  show (if _ then true else if _ then true else if _ then true else false) = _
  rw [if_chain_eq_or]
  unfold specIsChallenge
  rw [mem_status_list_eq]

/-- The proxy loop attempts at least one proxy when given a nonempty
list. -/
theorem proxyAttempts_ne_nil (f : String → Option Response) (p : String) (rest : List String) :
    proxyAttempts f (p :: rest) ≠ [] := by
  unfold proxyAttempts
  split <;> simp

/-- The attempted proxies form a prefix of the (shuffled) proxy list. -/
theorem proxyAttempts_isPrefixOf (f : String → Option Response) :
    ∀ l : List String, proxyAttempts f l <+: l := by
  intro l
  induction l with
  | nil => exact ⟨[], rfl⟩
  | cons q rest ih =>
    unfold proxyAttempts
    by_cases h : proxySuccess f q
    · simp only [h, if_true]
      exact ⟨rest, rfl⟩
    · simp only [h, if_false]
      obtain ⟨t, ht⟩ := ih
      exact ⟨t, by simp [ht]⟩

/-- Every attempted proxy except possibly the last was unsuccessful. -/
theorem proxyAttempts_dropLast_fail (f : String → Option Response) :
    ∀ l : List String, ∀ p ∈ (proxyAttempts f l).dropLast, proxySuccess f p = false := by
  intro l
  induction l with
  | nil => simp [proxyAttempts]
  | cons q rest ih =>
    intro p hp
    unfold proxyAttempts at hp
    by_cases h : proxySuccess f q = true
    · rw [if_pos h] at hp
      simp at hp
    · rw [if_neg h] at hp
      have h' : proxySuccess f q = false := by simpa using h
      cases hA : proxyAttempts f rest with
      | nil =>
        rw [hA] at hp
        simp at hp
      | cons a t =>
        rw [hA, List.dropLast_cons₂] at hp
        rcases List.mem_cons.mp hp with hpq | hpt
        · subst hpq
          exact h'
        · refine ih p ?_
          rw [hA]
          exact hpt

/-- When no proxy succeeds, the loop returns nothing and attempts every
proxy. -/
theorem proxyLoop_exhaust (f : String → Option Response) :
    ∀ l : List String, (∀ p ∈ l, proxySuccess f p = false) →
      proxyLoop f l = Option.none ∧ proxyAttempts f l = l := by
  intro l
  induction l with
  | nil => exact fun _ => ⟨rfl, rfl⟩
  | cons q rest ih =>
    intro h
    have hq : proxySuccess f q = false := h q (List.mem_cons_self q rest)
    have hrest := ih (fun p hp => h p (List.mem_cons_of_mem q hp))
    constructor
    · unfold proxyLoop
      cases hfq : f q with
      | none => exact hrest.1
      | some r =>
        have hacc : acceptable r = false := by
          unfold proxySuccess at hq
          rw [hfq] at hq
          exact hq
        simp [hacc, hrest.1]
    · unfold proxyAttempts
      simp [hq, hrest.2]

/-- An attempted proxy with an acceptable response determines the loop's
result. -/
theorem proxyLoop_result (f : String → Option Response) :
    ∀ (l : List String) (p : String) (r : Response), p ∈ proxyAttempts f l →
      f p = some r → acceptable r = true → proxyLoop f l = some r := by
  intro l
  induction l with
  | nil => simp [proxyAttempts]
  | cons q rest ih =>
    intro p r hp hf ha
    by_cases hq : proxySuccess f q
    · unfold proxyAttempts at hp
      simp only [hq, if_true, List.mem_singleton] at hp
      subst hp
      unfold proxyLoop
      rw [hf]
      simp [ha]
    · unfold proxyAttempts at hp
      rw [if_neg hq, List.mem_cons] at hp
      rcases hp with hpq | hpt
      · subst hpq
        unfold proxySuccess at hq
        rw [hf] at hq
        simp [ha] at hq
      · have := ih p r hpt hf ha
        unfold proxyLoop
        cases hfq : f q with
        | none => exact this
        | some r2 =>
          have hacc : acceptable r2 = false := by
            unfold proxySuccess at hq
            rw [hfq] at hq
            simpa using hq
          simp only [hacc, if_false]
          exact this

/-- C1: `requests_with_optional_proxy` makes exactly one direct attempt
first; an acceptable (2xx, non-challenge) direct response is returned
immediately with no proxy attempted, and with a nonempty proxy list
proxies are attempted exactly when the direct response is unacceptable;
the attempted proxies follow the once-shuffled order (a prefix of a
permutation of the verified list), none is attempted twice, none follows
the first success, every attempted proxy before the last failed, a
successful attempt's response is the result, and exhaustion attempts every
proxy exactly once. -/
theorem requests_with_optional_proxy_spec (direct : Option Response)
    (fetchViaProxy : String → Option Response) (proxies shuffled : List String)
    (hperm : shuffled.Perm proxies) (hnd : proxies.Nodup) :
    fetcherContract direct fetchViaProxy shuffled := by
  have hshuf_nd : shuffled.Nodup := hperm.nodup_iff.mpr hnd
  refine ⟨rfl, ?_, ?_, ?_, ?_, ?_, ?_, ?_, ?_⟩
  · -- exactly one direct attempt in the trace
    unfold fetchTrace
    rw [List.count_cons_self]
    have : (List.map Attempt.viaProxy (proxiesTried direct fetchViaProxy shuffled)).count
        Attempt.direct = 0 := by
      rw [List.count_eq_zero]
      simp
    omega
  · -- acceptable direct response: returned, no proxies tried
    intro r hd ha
    subst hd
    unfold requests_with_optional_proxy proxiesTried
    simp [ha]
  · -- proxies untried (with proxies available) implies direct acceptable
    intro hne hA
    cases hd : direct with
    | none =>
      unfold proxiesTried at hA
      rw [hd] at hA
      cases shuffled with
      | nil => exact absurd rfl hne
      | cons p rest => exact absurd hA (proxyAttempts_ne_nil _ p rest)
    | some r =>
      by_cases ha : acceptable r
      · exact ⟨r, rfl, ha⟩
      · unfold proxiesTried at hA
        rw [hd] at hA
        simp only [ha, if_false] at hA
        cases shuffled with
        | nil => exact absurd rfl hne
        | cons p rest => exact absurd hA (proxyAttempts_ne_nil _ p rest)
  · -- the tried proxies are a prefix of the shuffled list
    unfold proxiesTried
    cases direct with
    | none => exact proxyAttempts_isPrefixOf _ shuffled
    | some r =>
      by_cases ha : acceptable r
      · simp only [ha, if_true]
        exact ⟨shuffled, rfl⟩
      · simp only [ha, if_false]
        exact proxyAttempts_isPrefixOf _ shuffled
  · -- no proxy is tried twice
    have hpre : proxiesTried direct fetchViaProxy shuffled <+: shuffled := by
      unfold proxiesTried
      cases direct with
      | none => exact proxyAttempts_isPrefixOf _ shuffled
      | some r =>
        by_cases ha : acceptable r
        · simp only [ha, if_true]
          exact ⟨shuffled, rfl⟩
        · simp only [ha, if_false]
          exact proxyAttempts_isPrefixOf _ shuffled
    exact hshuf_nd.sublist hpre.sublist
  · -- every tried proxy except possibly the last failed
    unfold proxiesTried
    cases direct with
    | none => exact proxyAttempts_dropLast_fail _ shuffled
    | some r =>
      by_cases ha : acceptable r
      · simp [ha]
      · simp only [ha, if_false]
        exact proxyAttempts_dropLast_fail _ shuffled
  · -- a tried proxy's acceptable response is the call's result
    intro p r hp hf ha
    cases hd : direct with
    | none =>
      unfold proxiesTried at hp
      rw [hd] at hp
      have := proxyLoop_result fetchViaProxy shuffled p r hp hf ha
      unfold requests_with_optional_proxy
      rw [this]
    | some r0 =>
      by_cases ha0 : acceptable r0
      · unfold proxiesTried at hp
        rw [hd] at hp
        simp [ha0] at hp
      · unfold proxiesTried at hp
        rw [hd] at hp
        simp only [ha0, if_false] at hp
        have := proxyLoop_result fetchViaProxy shuffled p r hp hf ha
        unfold requests_with_optional_proxy
        rw [this]
        simp [ha0]
  · -- exhaustion: every proxy is tried
    intro hdu hall
    unfold proxiesTried
    cases hd : direct with
    | none => exact (proxyLoop_exhaust fetchViaProxy shuffled hall).2
    | some r =>
      have hacc := hdu r hd
      simp [hacc]
      exact (proxyLoop_exhaust fetchViaProxy shuffled hall).2

/-- Witness for C1 at a concrete call: a challenged direct response, two
verified proxies in shuffled order, the second in pool order succeeding. -/
theorem requests_with_optional_proxy_spec_witness :
    List.Perm ["9.9.9.9:80", "1.1.1.1:80"] ["1.1.1.1:80", "9.9.9.9:80"] ∧
    List.Nodup ["1.1.1.1:80", "9.9.9.9:80"] ∧
    fetcherContract (some ⟨503, "Just a moment..."⟩)
      (fun p => if p = "9.9.9.9:80" then some ⟨200, "ok"⟩ else Option.none)
      ["9.9.9.9:80", "1.1.1.1:80"] :=
  ⟨by decide, by decide,
    requests_with_optional_proxy_spec _ _ ["1.1.1.1:80", "9.9.9.9:80"] _ (by decide) (by decide)⟩

/-- Counterexample to C5 as stated: with a direct 404 response (a
best-known response exists) and a single proxy whose attempt fails, the
call returns the no-response outcome instead of the best-known response —
the source's final fallback only ever returns a 2xx direct response. -/
theorem requests_exhaustion_counterexample :
    requests_with_optional_proxy (some ⟨404, "not found"⟩) (fun _ => Option.none)
      ["1.2.3.4:80"] = Option.none ∧
    requests_with_optional_proxy (some ⟨404, "not found"⟩) (fun _ => Option.none)
      ["1.2.3.4:80"] ≠ some ⟨404, "not found"⟩ := by
  decide

/-- C5 (amended): when the direct attempt fails or is unacceptable and
every proxy attempt fails, is challenged, or is rate-limited
(402/429/503), the fetch returns an explicit value — the direct response
when it had a 2xx status (a challenged 2xx response), else the no-response
outcome — and the lookup wrapper maps the no-response outcome to an
`error` record instead of raising. -/
theorem requests_exhaustion_spec (direct : Option Response)
    (fetchViaProxy : String → Option Response) (shuffled : List String)
    (hdirect : ∀ r, direct = some r → acceptable r = false)
    (hproxies : ∀ p ∈ shuffled, fetchViaProxy p = Option.none ∨
      ∃ r, fetchViaProxy p = some r ∧ (is_cloudflare_challenge (some r) = true ∨
        r.status_code = 402 ∨ r.status_code = 429 ∨ r.status_code = 503)) :
    exhaustionContract direct fetchViaProxy shuffled := by
  have hfail : ∀ p ∈ shuffled, proxySuccess fetchViaProxy p = false := by
    intro p hp
    rcases hproxies p hp with hnone | ⟨r, hr, hbad⟩
    · unfold proxySuccess
      rw [hnone]
    · unfold proxySuccess
      rw [hr]
      rcases hbad with hch | h402 | h429 | h503
      · simp [acceptable, hch]
      · simp [acceptable, h402]
      · simp [acceptable, h429]
      · simp [acceptable, h503]
  have hloop : proxyLoop fetchViaProxy shuffled = Option.none :=
    (proxyLoop_exhaust fetchViaProxy shuffled hfail).1
  refine ⟨?_, ?_, ?_, fun parse => rfl⟩
  · intro hd
    subst hd
    unfold requests_with_optional_proxy
    rw [hloop]
  · intro r hd h200 h300
    subst hd
    have hacc := hdirect r rfl
    simp only [requests_with_optional_proxy]
    rw [hacc, hloop]
    simp [h200, h300]
  · intro r hd hnot2xx
    subst hd
    have hacc := hdirect r rfl
    simp only [requests_with_optional_proxy]
    rw [hacc, hloop]
    have h2xx : (decide (200 ≤ r.status_code) && decide (r.status_code < 300)) = false := by
      rcases Nat.lt_or_ge r.status_code 200 with hlt | hge
      · simp [Nat.not_le_of_lt hlt]
      · have h300 : ¬(r.status_code < 300) := fun hc => hnot2xx ⟨hge, hc⟩
        simp [h300]
    rw [h2xx]
    simp

/-- Witness for the amended C5: an unacceptable 404 direct response and a
single proxy that is rate-limited on every attempt. -/
theorem requests_exhaustion_spec_witness :
    (∀ r : Response, (some (⟨404, "not found"⟩ : Response)) = some r → acceptable r = false) ∧
    (∀ p ∈ (["1.2.3.4:80"] : List String),
      (fun _ : String => some (⟨429, ""⟩ : Response)) p = Option.none ∨
      ∃ r, (fun _ : String => some (⟨429, ""⟩ : Response)) p = some r ∧
        (is_cloudflare_challenge (some r) = true ∨
          r.status_code = 402 ∨ r.status_code = 429 ∨ r.status_code = 503)) ∧
    exhaustionContract (some ⟨404, "not found"⟩)
      (fun _ => some ⟨429, ""⟩) ["1.2.3.4:80"] := by
  have h1 : ∀ r : Response, (some (⟨404, "not found"⟩ : Response)) = some r →
      acceptable r = false := by
    intro r h
    injection h with h2
    rw [← h2]
    decide
  have h2 : ∀ p ∈ (["1.2.3.4:80"] : List String),
      (fun _ : String => some (⟨429, ""⟩ : Response)) p = Option.none ∨
      ∃ r, (fun _ : String => some (⟨429, ""⟩ : Response)) p = some r ∧
        (is_cloudflare_challenge (some r) = true ∨
          r.status_code = 402 ∨ r.status_code = 429 ∨ r.status_code = 503) :=
    fun p _ => Or.inr ⟨⟨429, ""⟩, rfl, Or.inr (Or.inr (Or.inl rfl))⟩
  exact ⟨h1, h2, requests_exhaustion_spec _ _ _ h1 h2⟩

/-- `pyIsNone` decides being the `None` constructor. -/
theorem pyIsNone_iff (v : PyVal) : pyIsNone v = true ↔ v = PyVal.none := by
  cases v <;> simp [pyIsNone]

/-- Looking a canonical field up in the merged record gives the merge of
its two key-paths. -/
theorem merged_lookup (primary secondary : PyDict) (out k1 : String) (k2 : Option String)
    (hmem : (out, k1, k2) ∈ mapping) :
    pget (merge_geo_data primary secondary) out = mergeField primary secondary k1 k2 := by
  simp only [mapping, List.mem_cons, List.not_mem_nil, or_false] at hmem
  rcases hmem with h | h | h | h | h | h | h | h | h | h <;>
    (injection h with h1 h23; injection h23 with h2 h3; subst h1; subst h2; subst h3; rfl)

/-- `get_from` agrees with the spec-side resolution on a dot-free
key-path. -/
theorem get_from_eq_specResolve_single (p : PyDict) (k : String)
    (hdot : strContains k "." = false) (hsplit : pySplitDot k = [k]) :
    get_from p (some k) = specResolve p k := by
  simp only [get_from, specResolve]
  rw [hsplit, hdot]
  cases p with
  | nil => rfl
  | cons hd tl => rfl

/-- `get_from` agrees with the spec-side resolution on a two-segment
dotted key-path. -/
theorem get_from_eq_specResolve_double (p : PyDict) (k a b : String)
    (hdot : strContains k "." = true) (hsplit : pySplitDot k = [a, b]) :
    get_from p (some k) = specResolve p k := by
  simp only [get_from, specResolve]
  rw [hsplit, hdot]
  cases p with
  | nil => rfl
  | cons hd tl => rfl

/-- The secondary branch of the merge loop equals the spec-side
secondary-only field value. -/
theorem specSecondary_branch (s : PyDict) (ks : String)
    (h2 : get_from s (some ks) = specResolve s ks) (hks : ks ≠ "") :
    (if !s.isEmpty && !pyTruthy (pget s "error") && optStrTruthy (some ks)
      then get_from s (some ks) else PyVal.none) = specSecondaryValue s (some ks) := by
  have hopt : optStrTruthy (some ks) = true := by
    unfold optStrTruthy
    simp [hks]
  cases s with
  | nil =>
    have h0 : specResolve ([] : PyDict) ks = PyVal.none := h2.symm.trans rfl
    simp [specSecondaryValue, hasErrorMarker, h0, pyIsNone]
  | cons hd tl =>
    by_cases he : pyTruthy (pget (hd :: tl) "error") = true
    · simp [specSecondaryValue, hasErrorMarker, he]
    · have he' : pyTruthy (pget (hd :: tl) "error") = false := by simpa using he
      by_cases hn : pyIsNone (specResolve (hd :: tl) ks) = true
      · have h0 : specResolve (hd :: tl) ks = PyVal.none := (pyIsNone_iff _).mp hn
        simp [specSecondaryValue, hasErrorMarker, he', hopt, h0, h2]
      · have hn' : pyIsNone (specResolve (hd :: tl) ks) = false := by simpa using hn
        simp [specSecondaryValue, hasErrorMarker, he', hopt, hn', h2]

/-- The merge of a field with both key-paths equals the spec-side merged
value. -/
theorem mergeField_eq_spec (p s : PyDict) (k1 ks : String)
    (h1 : get_from p (some k1) = specResolve p k1)
    (h2 : get_from s (some ks) = specResolve s ks)
    (hks : ks ≠ "") :
    mergeField p s k1 (some ks) = specMergeValue p s k1 (some ks) := by
  have hsec := specSecondary_branch s ks h2 hks
  unfold mergeField specMergeValue
  cases p with
  | nil =>
    have h0 : specResolve ([] : PyDict) k1 = PyVal.none := h1.symm.trans rfl
    simpa [hasErrorMarker, pget, pgetOpt, pyTruthy, h0, pyIsNone] using hsec
  | cons hd tl =>
    by_cases he : pyTruthy (pget (hd :: tl) "error") = true
    · simpa [hasErrorMarker, he, pyIsNone] using hsec
    · have he' : pyTruthy (pget (hd :: tl) "error") = false := by simpa using he
      by_cases hn : pyIsNone (specResolve (hd :: tl) k1) = true
      · have h0 : specResolve (hd :: tl) k1 = PyVal.none := (pyIsNone_iff _).mp hn
        simpa [hasErrorMarker, he', h1, h0, pyIsNone] using hsec
      · have hn' : pyIsNone (specResolve (hd :: tl) k1) = false := by simpa using hn
        simp [hasErrorMarker, he', h1, hn']

/-- The merge of a field without a secondary key-path equals the
spec-side merged value. -/
theorem mergeField_eq_spec_none (p s : PyDict) (k1 : String)
    (h1 : get_from p (some k1) = specResolve p k1) :
    mergeField p s k1 Option.none = specMergeValue p s k1 Option.none := by
  unfold mergeField specMergeValue specSecondaryValue
  cases p with
  | nil =>
    have h0 : specResolve ([] : PyDict) k1 = PyVal.none := h1.symm.trans rfl
    simp [hasErrorMarker, pget, pgetOpt, pyTruthy, h0, pyIsNone, optStrTruthy]
  | cons hd tl =>
    by_cases he : pyTruthy (pget (hd :: tl) "error") = true
    · simp [hasErrorMarker, he, pyIsNone, optStrTruthy]
    · have he' : pyTruthy (pget (hd :: tl) "error") = false := by simpa using he
      by_cases hn : pyIsNone (specResolve (hd :: tl) k1) = true
      · have h0 : specResolve (hd :: tl) k1 = PyVal.none := (pyIsNone_iff _).mp hn
        simp [hasErrorMarker, he', h1, h0, pyIsNone, optStrTruthy]
      · have hn' : pyIsNone (specResolve (hd :: tl) k1) = false := by simpa using hn
        simp [hasErrorMarker, he', h1, hn', optStrTruthy]

/-- C3: for every pair of input records and every canonical field of the
merge table, the merged record assigns the field the spec-side merged
value: the primary's key-path value when the primary has no error marker
and the path resolves to non-null, else the secondary's under the same
condition, else null — where a key-path resolves by the dotted walk
through nested mappings (`specResolve`/`walkPath`), short-circuiting to
null at any non-mapping intermediate. -/
theorem merge_geo_data_spec (primary secondary : PyDict) (out k1 : String) (k2 : Option String)
    (hmem : (out, k1, k2) ∈ mapping) :
    pget (merge_geo_data primary secondary) out = specMergeValue primary secondary k1 k2 := by
  rw [merged_lookup primary secondary out k1 k2 hmem]
  simp only [mapping, List.mem_cons, List.not_mem_nil, or_false] at hmem
  rcases hmem with h | h | h | h | h | h | h | h | h | h <;>
    (injection h with h1 h23; injection h23 with h2 h3; subst h1; subst h2; subst h3)
  · exact mergeField_eq_spec _ _ _ _
      (get_from_eq_specResolve_single _ "query" (by decide) (by decide))
      (get_from_eq_specResolve_single _ "ip" (by decide) (by decide)) (by decide)
  · exact mergeField_eq_spec _ _ _ _
      (get_from_eq_specResolve_single _ "country" (by decide) (by decide))
      (get_from_eq_specResolve_single _ "country" (by decide) (by decide)) (by decide)
  · exact mergeField_eq_spec _ _ _ _
      (get_from_eq_specResolve_single _ "regionName" (by decide) (by decide))
      (get_from_eq_specResolve_single _ "region" (by decide) (by decide)) (by decide)
  · exact mergeField_eq_spec _ _ _ _
      (get_from_eq_specResolve_single _ "city" (by decide) (by decide))
      (get_from_eq_specResolve_single _ "city" (by decide) (by decide)) (by decide)
  · exact mergeField_eq_spec _ _ _ _
      (get_from_eq_specResolve_single _ "lat" (by decide) (by decide))
      (get_from_eq_specResolve_single _ "latitude" (by decide) (by decide)) (by decide)
  · exact mergeField_eq_spec _ _ _ _
      (get_from_eq_specResolve_single _ "lon" (by decide) (by decide))
      (get_from_eq_specResolve_single _ "longitude" (by decide) (by decide)) (by decide)
  · exact mergeField_eq_spec_none _ _ _
      (get_from_eq_specResolve_single _ "timezone" (by decide) (by decide))
  · exact mergeField_eq_spec _ _ _ _
      (get_from_eq_specResolve_single _ "isp" (by decide) (by decide))
      (get_from_eq_specResolve_double _ "connection.isp" "connection" "isp"
        (by decide) (by decide)) (by decide)
  · exact mergeField_eq_spec _ _ _ _
      (get_from_eq_specResolve_single _ "org" (by decide) (by decide))
      (get_from_eq_specResolve_single _ "org" (by decide) (by decide)) (by decide)
  · exact mergeField_eq_spec _ _ _ _
      (get_from_eq_specResolve_single _ "as" (by decide) (by decide))
      (get_from_eq_specResolve_double _ "connection.asn" "connection" "asn"
        (by decide) (by decide)) (by decide)

/-- Witness for C3 at the spec's example records: the country field is
taken from the primary. -/
theorem merge_geo_data_spec_witness :
    (("country", "country", some "country") ∈ mapping) ∧
    pget (merge_geo_data [("country", PyVal.str "Wonderland"), ("lat", PyVal.none)]
        [("country", PyVal.str "Elsewhere"), ("lat", PyVal.rat (51.5 : Rat))]) "country" =
      specMergeValue [("country", PyVal.str "Wonderland"), ("lat", PyVal.none)]
        [("country", PyVal.str "Elsewhere"), ("lat", PyVal.rat (51.5 : Rat))]
        "country" (some "country") :=
  ⟨by decide, merge_geo_data_spec _ _ _ _ _ (by decide)⟩

/-- Counterexample to C4 as stated: a primary record that carries an
`error` key with the falsy value `None` is not bypassed — the merged
country is taken from the primary, not the secondary.  The source tests
truthiness of `primary.get("error")`, not key presence. -/
theorem merge_error_bypass_counterexample :
    hasKey [("error", PyVal.none), ("country", PyVal.str "X")] "error" = true ∧
    pget (merge_geo_data [("error", PyVal.none), ("country", PyVal.str "X")]
      [("country", PyVal.str "Y")]) "country" = PyVal.str "X" ∧
    pget [("country", PyVal.str "Y")] "country" = PyVal.str "Y" ∧
    PyVal.str "X" ≠ PyVal.str "Y" := by
  refine ⟨rfl, rfl, rfl, fun h => ?_⟩
  injection h with h2
  exact absurd h2 (by decide)

/-- A field of the merge loop under a truthy primary `error` entry, with a
present secondary key-path, is the spec-side secondary-only value. -/
theorem mergeField_error_some (p s : PyDict) (k1 ks : String)
    (herr : pyTruthy (pget p "error") = true)
    (h2 : get_from s (some ks) = specResolve s ks) (hks : ks ≠ "") :
    mergeField p s k1 (some ks) = specSecondaryValue s (some ks) := by
  have hsec := specSecondary_branch s ks h2 hks
  unfold mergeField
  simpa [herr, pyIsNone] using hsec

/-- A field of the merge loop under a truthy primary `error` entry, with
no secondary key-path, is null (the spec-side secondary-only value for an
absent path). -/
theorem mergeField_error_none (p s : PyDict) (k1 : String)
    (herr : pyTruthy (pget p "error") = true) :
    mergeField p s k1 Option.none = specSecondaryValue s Option.none := by
  unfold mergeField specSecondaryValue
  simp [herr, pyIsNone, optStrTruthy]

/-- C4 (amended): for every primary record whose `error` entry is truthy
(the source's error test is Python truthiness of `primary.get("error")`,
so a falsy `error` value such as `None` or `""` is not a marker), every
canonical field of the merged record is the secondary-only value —
regardless of the primary's other contents. -/
theorem merge_error_bypass_spec (primary secondary : PyDict) (out k1 : String)
    (k2 : Option String) (hmem : (out, k1, k2) ∈ mapping)
    (herr : pyTruthy (pget primary "error") = true) :
    pget (merge_geo_data primary secondary) out = specSecondaryValue secondary k2 := by
  rw [merged_lookup primary secondary out k1 k2 hmem]
  simp only [mapping, List.mem_cons, List.not_mem_nil, or_false] at hmem
  rcases hmem with h | h | h | h | h | h | h | h | h | h <;>
    (injection h with h1 h23; injection h23 with h2 h3; subst h1; subst h2; subst h3)
  · exact mergeField_error_some _ _ _ _ herr
      (get_from_eq_specResolve_single _ "ip" (by decide) (by decide)) (by decide)
  · exact mergeField_error_some _ _ _ _ herr
      (get_from_eq_specResolve_single _ "country" (by decide) (by decide)) (by decide)
  · exact mergeField_error_some _ _ _ _ herr
      (get_from_eq_specResolve_single _ "region" (by decide) (by decide)) (by decide)
  · exact mergeField_error_some _ _ _ _ herr
      (get_from_eq_specResolve_single _ "city" (by decide) (by decide)) (by decide)
  · exact mergeField_error_some _ _ _ _ herr
      (get_from_eq_specResolve_single _ "latitude" (by decide) (by decide)) (by decide)
  · exact mergeField_error_some _ _ _ _ herr
      (get_from_eq_specResolve_single _ "longitude" (by decide) (by decide)) (by decide)
  · exact mergeField_error_none _ _ _ herr
  · exact mergeField_error_some _ _ _ _ herr
      (get_from_eq_specResolve_double _ "connection.isp" "connection" "isp"
        (by decide) (by decide)) (by decide)
  · exact mergeField_error_some _ _ _ _ herr
      (get_from_eq_specResolve_single _ "org" (by decide) (by decide)) (by decide)
  · exact mergeField_error_some _ _ _ _ herr
      (get_from_eq_specResolve_double _ "connection.asn" "connection" "asn"
        (by decide) (by decide)) (by decide)

/-- Witness for the amended C4: a primary with a truthy `error` entry and
a country value is bypassed in favour of the secondary. -/
theorem merge_error_bypass_spec_witness :
    (("country", "country", some "country") ∈ mapping) ∧
    pyTruthy (pget [("error", PyVal.str "boom"), ("country", PyVal.str "X")] "error") = true ∧
    pget (merge_geo_data [("error", PyVal.str "boom"), ("country", PyVal.str "X")]
        [("country", PyVal.str "Y")]) "country" =
      specSecondaryValue [("country", PyVal.str "Y")] (some "country") :=
  ⟨by decide, by decide,
    merge_error_bypass_spec [("error", PyVal.str "boom"), ("country", PyVal.str "X")]
      [("country", PyVal.str "Y")] "country" "country" (some "country")
      (by decide) (by decide)⟩

/-- The merge of a field with no secondary key-path does not depend on the
secondary record. -/
theorem mergeField_none_indep (p s s2 : PyDict) (k1 : String) :
    mergeField p s k1 Option.none = mergeField p s2 k1 Option.none := by
  unfold mergeField
  simp [optStrTruthy]

/-- C10: the timezone field has no secondary key-path, so whenever the
primary carries an error marker (truthy `error` entry) or its timezone
path resolves to null, the merged timezone is null; and the merged
timezone never depends on the secondary record at all. -/
theorem merge_timezone_primary_only (primary secondary : PyDict)
    (h : pyTruthy (pget primary "error") = true ∨
      get_from primary (some "timezone") = PyVal.none) :
    pget (merge_geo_data primary secondary) "timezone" = PyVal.none ∧
    ∀ secondary2 : PyDict, pget (merge_geo_data primary secondary2) "timezone" =
      pget (merge_geo_data primary secondary) "timezone" := by
  have hmem : ("timezone", "timezone", (Option.none : Option String)) ∈ mapping := by decide
  constructor
  · rw [merged_lookup primary secondary "timezone" "timezone" Option.none hmem]
    rcases h with herr | hnone
    · rw [mergeField_error_none _ _ _ herr]
      rfl
    · unfold mergeField
      by_cases hc : (!primary.isEmpty && !pyTruthy (pget primary "error")) = true
      · simp [hc, hnone, pyIsNone, optStrTruthy]
      · have hc' : (!primary.isEmpty && !pyTruthy (pget primary "error")) = false := by
          simpa using hc
        simp [hc', pyIsNone, optStrTruthy]
  · intro secondary2
    rw [merged_lookup primary secondary "timezone" "timezone" Option.none hmem,
      merged_lookup primary secondary2 "timezone" "timezone" Option.none hmem]
    exact mergeField_none_indep primary secondary2 secondary "timezone"

/-- Witness for C10: a primary with an error marker and a secondary that
does carry a timezone still merge to a null timezone. -/
theorem merge_timezone_primary_only_witness :
    (pyTruthy (pget [("error", PyVal.str "fail")] "error") = true ∨
      get_from [("error", PyVal.str "fail")] (some "timezone") = PyVal.none) ∧
    pget (merge_geo_data [("error", PyVal.str "fail")] [("timezone", PyVal.str "UTC")])
      "timezone" = PyVal.none ∧
    ∀ secondary2 : PyDict, pget (merge_geo_data [("error", PyVal.str "fail")] secondary2)
      "timezone" = pget (merge_geo_data [("error", PyVal.str "fail")]
        [("timezone", PyVal.str "UTC")]) "timezone" :=
  ⟨Or.inl (by decide),
    merge_timezone_primary_only _ _ (Or.inl (by decide))⟩

/-- C6: the verified list is exactly the subset of candidates whose
connectivity and forwarding checks both pass, independent of the
completion order of the worker pool (any permutation of the candidate
list gives the same membership); and for a candidate whose connectivity
check fails, the forwarding check is never attempted and the combined
check fails. -/
theorem verify_proxies_spec (conn fwd : String → Bool) (proxies completionOrder : List String)
    (hperm : completionOrder.Perm proxies) :
    (∀ p, p ∈ verify_proxies conn fwd completionOrder ↔
      (p ∈ proxies ∧ conn p = true ∧ fwd p = true)) ∧
    (∀ p, conn p = false →
      forwardCheckAttempted conn p = false ∧ verify_proxy_full conn fwd p = false) := by
  constructor
  · intro p
    unfold verify_proxies
    rw [List.mem_filter]
    constructor
    · rintro ⟨hmem, hpass⟩
      have hmem2 := hperm.mem_iff.mp hmem
      unfold verify_proxy_full at hpass
      by_cases hc : conn p = true
      · rw [if_pos hc] at hpass
        exact ⟨hmem2, hc, hpass⟩
      · rw [if_neg hc] at hpass
        cases hpass
    · rintro ⟨hmem, hc, hf⟩
      refine ⟨hperm.mem_iff.mpr hmem, ?_⟩
      unfold verify_proxy_full
      rw [if_pos hc]
      exact hf
  · intro p hc
    refine ⟨hc, ?_⟩
    unfold verify_proxy_full
    simp [hc]

/-- Witness for C6: two candidates completing in reversed order; only the
one passing both checks is verified. -/
theorem verify_proxies_spec_witness :
    List.Perm ["8.8.8.8:3128", "1.2.3.4:80"] ["1.2.3.4:80", "8.8.8.8:3128"] ∧
    (∀ p, p ∈ verify_proxies (fun q => decide (q = "1.2.3.4:80") || decide (q = "8.8.8.8:3128"))
        (fun q => decide (q = "1.2.3.4:80")) ["8.8.8.8:3128", "1.2.3.4:80"] ↔
      (p ∈ ["1.2.3.4:80", "8.8.8.8:3128"] ∧
        (decide (p = "1.2.3.4:80") || decide (p = "8.8.8.8:3128")) = true ∧
        decide (p = "1.2.3.4:80") = true)) :=
  ⟨by decide,
    (verify_proxies_spec (fun q => decide (q = "1.2.3.4:80") || decide (q = "8.8.8.8:3128"))
      (fun q => decide (q = "1.2.3.4:80")) ["1.2.3.4:80", "8.8.8.8:3128"]
      ["8.8.8.8:3128", "1.2.3.4:80"] (by decide)).1⟩

/-- Invariant of the retry loop, by induction on the remaining fuel: the
attempt count moves from `tries` by at most `fuel`; every attempt after
the entry one follows a rate-limited error; the sleeps form the geometric
backoff sequence from the entry backoff; there is one sleep per retry and
at most one more; and the loop never passes an iteration whose
cancellation check fires. -/
theorem retryAux_invariant (fetchAt : Nat → PyDict) (stop : Nat → Bool) :
    ∀ (fuel tries : Nat) (backoff : Rat) (cur : PyDict),
      tries ≤ (retryAux fetchAt stop fuel tries backoff cur).2.1 ∧
      (retryAux fetchAt stop fuel tries backoff cur).2.1 ≤ tries + fuel ∧
      (∀ i, tries < i → i < (retryAux fetchAt stop fuel tries backoff cur).2.1 →
        pyTruthy (pget (fetchAt i) "error") = true ∧ isRateLimit (fetchAt i) = true) ∧
      (retryAux fetchAt stop fuel tries backoff cur).2.2 =
        (List.range (retryAux fetchAt stop fuel tries backoff cur).2.2.length).map
          (fun j => backoff * 2 ^ j) ∧
      (retryAux fetchAt stop fuel tries backoff cur).2.1 - tries - 1 ≤
        (retryAux fetchAt stop fuel tries backoff cur).2.2.length ∧
      (retryAux fetchAt stop fuel tries backoff cur).2.2.length ≤
        (retryAux fetchAt stop fuel tries backoff cur).2.1 - tries ∧
      (∀ i, stop i = true → tries ≤ i → (retryAux fetchAt stop fuel tries backoff cur).2.1 ≤ i) := by
  intro fuel
  induction fuel with
  | zero =>
    intro tries backoff cur
    have hn : (retryAux fetchAt stop 0 tries backoff cur).2.1 = tries := rfl
    have hl : (retryAux fetchAt stop 0 tries backoff cur).2.2 = [] := rfl
    rw [hn, hl]
    exact ⟨le_refl _, by omega, fun i h1 h2 => absurd h2 (by omega), by simp,
      by simp only [List.length_nil]; omega, by simp only [List.length_nil]; omega,
      fun i hsi hti => hti⟩
  | succ fuel ih =>
    intro tries backoff cur
    by_cases hs : stop tries = true
    · have hn : (retryAux fetchAt stop (fuel + 1) tries backoff cur).2.1 = tries := by
        simp [retryAux, hs]
      have hl : (retryAux fetchAt stop (fuel + 1) tries backoff cur).2.2 = [] := by
        simp [retryAux, hs]
      rw [hn, hl]
      exact ⟨le_refl _, by omega, fun i h1 h2 => absurd h2 (by omega), by simp,
        by simp only [List.length_nil]; omega, by simp only [List.length_nil]; omega,
        fun i hsi hti => hti⟩
    · have hs2 : stop tries = false := by simpa using hs
      by_cases he : pyTruthy (pget (fetchAt (tries + 1)) "error") = true
      · by_cases hr : isRateLimit (fetchAt (tries + 1)) = true
        · -- rate-limited error: sleep and continue
          obtain ⟨ih1, ih2, ih3, ih4, ih5, ih6, ih7⟩ :=
            ih (tries + 1) (backoff * 2) (fetchAt (tries + 1))
          have hn : (retryAux fetchAt stop (fuel + 1) tries backoff cur).2.1 =
              (retryAux fetchAt stop fuel (tries + 1) (backoff * 2) (fetchAt (tries + 1))).2.1 := by
            simp [retryAux, hs2, he, hr]
          have hsl : (retryAux fetchAt stop (fuel + 1) tries backoff cur).2.2 =
              backoff ::
                (retryAux fetchAt stop fuel (tries + 1) (backoff * 2) (fetchAt (tries + 1))).2.2 := by
            simp [retryAux, hs2, he, hr]
          refine ⟨?_, ?_, ?_, ?_, ?_, ?_, ?_⟩
          · rw [hn]; omega
          · rw [hn]; omega
          · intro i h1 h2
            rw [hn] at h2
            by_cases hi : i = tries + 1
            · subst hi
              exact ⟨he, hr⟩
            · exact ih3 i (by omega) h2
          · have hcomp : ((fun j => backoff * 2 ^ j) ∘ Nat.succ) =
                (fun j => backoff * 2 * 2 ^ j) := by
              funext j
              simp only [Function.comp_apply, pow_succ]
              ring
            rw [hsl, List.length_cons, List.range_succ_eq_map, List.map_cons, List.map_map,
              hcomp, pow_zero, mul_one, ← ih4]
          · rw [hn, hsl, List.length_cons]; omega
          · rw [hn, hsl, List.length_cons]; omega
          · intro i hsi hti
            rw [hn]
            have hne : i ≠ tries := fun hq => by rw [hq] at hsi; rw [hsi] at hs2; cases hs2
            exact ih7 i hsi (by omega)
        · -- non-rate-limit error: stop after this attempt
          have hn : (retryAux fetchAt stop (fuel + 1) tries backoff cur).2.1 = tries + 1 := by
            simp [retryAux, hs2, he, hr]
          have hl : (retryAux fetchAt stop (fuel + 1) tries backoff cur).2.2 = [] := by
            simp [retryAux, hs2, he, hr]
          rw [hn, hl]
          refine ⟨by omega, by omega, fun i h1 h2 => by omega, by simp,
            by simp only [List.length_nil]; omega, by simp only [List.length_nil]; omega,
            fun i hsi hti => ?_⟩
          have hne : i ≠ tries := fun hq => by rw [hq] at hsi; rw [hsi] at hs2; cases hs2
          omega
      · -- non-error result: stop after this attempt
        have hn : (retryAux fetchAt stop (fuel + 1) tries backoff cur).2.1 = tries + 1 := by
          simp [retryAux, hs2, he]
        have hl : (retryAux fetchAt stop (fuel + 1) tries backoff cur).2.2 = [] := by
          simp [retryAux, hs2, he]
        rw [hn, hl]
        refine ⟨by omega, by omega, fun i h1 h2 => by omega, by simp,
          by simp only [List.length_nil]; omega, by simp only [List.length_nil]; omega,
          fun i hsi hti => ?_⟩
        have hne : i ≠ tries := fun hq => by rw [hq] at hsi; rw [hsi] at hs2; cases hs2
        omega

/-- C7: within one geolocation query the ip-api lookup is attempted at
most 3 times; an attempt beyond the first happens only when the previous
attempt's error indicates a rate-limit; the backoff sleeps are 1, 2, 4
time units (starting at 1, doubling), with a sleep before every retry;
the loop stops immediately on a non-error result or a non-rate-limit
error; and no attempt starts at or after an iteration where the
cancellation check fires. -/
theorem query_geolocation_retry_spec (fetchAt : Nat → PyDict) (stop : Nat → Bool) :
    retryContract fetchAt stop := by
  obtain ⟨h1, h2, h3, h4, h5, h6, h7⟩ := retryAux_invariant fetchAt stop 3 0 1 initIpapi
  unfold retryContract ipapiRetryLoop
  refine ⟨by omega, ?_, ?_, by omega, by omega, fun i hsi => h7 i hsi (Nat.zero_le i)⟩
  · intro i hi1 hin
    exact h3 i (by omega) hin
  · have hone : (fun j => (1 : Rat) * 2 ^ j) = (fun j => (2 : Rat) ^ j) :=
      funext fun j => one_mul _
    calc (retryAux fetchAt stop 3 0 1 initIpapi).2.2
        = (List.range (retryAux fetchAt stop 3 0 1 initIpapi).2.2.length).map
            (fun j => (1 : Rat) * 2 ^ j) := h4
      _ = (List.range (retryAux fetchAt stop 3 0 1 initIpapi).2.2.length).map
            (fun j => (2 : Rat) ^ j) := by rw [hone]

/-- Witness for C7: an oracle that is rate-limited on every attempt, with
cancellation firing from the third iteration: the loop makes exactly two
attempts and sleeps 1 then 2 time units. -/
theorem query_geolocation_retry_spec_witness :
    (ipapiRetryLoop (fun _ => [("error", PyVal.str "HTTP 429 Too Many Requests")])
      (fun i => decide (2 ≤ i))).2.1 = 2 ∧
    (ipapiRetryLoop (fun _ => [("error", PyVal.str "HTTP 429 Too Many Requests")])
      (fun i => decide (2 ≤ i))).2.2.length = 2 ∧
    retryContract (fun _ => [("error", PyVal.str "HTTP 429 Too Many Requests")])
      (fun i => decide (2 ≤ i)) :=
  ⟨by decide, by decide, query_geolocation_retry_spec _ _⟩

/-- Splitting at a separator occurrence: the separator-free segment before
the first separator becomes the first piece. -/
theorem splitOnChar_append_cons (c : Char) : ∀ (p rest : List Char), c ∉ p →
    splitOnChar c (p ++ c :: rest) = p :: splitOnChar c rest := by
  intro p
  induction p with
  | nil =>
    intro rest _
    simp [splitOnChar]
  | cons x xs ih =>
    intro rest hp
    have hx : ¬(x = c) := fun h => hp (List.mem_cons.mpr (Or.inl h.symm))
    have hxs : c ∉ xs := fun hh => hp (List.mem_cons_of_mem x hh)
    rw [List.cons_append, splitOnChar, ih rest hxs]
    simp [hx]

/-- Saving then loading a list of non-blank, strip-fixed, newline-free
addresses reproduces the list exactly. -/
theorem load_save_roundtrip : ∀ (proxies : List (List Char)),
    (∀ p ∈ proxies, p ≠ [] ∧ pyStrip p = p ∧ '\n' ∉ p) →
    load_saved_proxies (some (save_working_proxies proxies)) = proxies := by
  intro proxies
  induction proxies with
  | nil => intro _; rfl
  | cons p ps ih =>
    intro h
    obtain ⟨hne, hstrip, hnl⟩ := h p (List.mem_cons_self p ps)
    have hps := ih (fun q hq => h q (List.mem_cons_of_mem p hq))
    have hsave : save_working_proxies (p :: ps) = p ++ '\n' :: save_working_proxies ps := by
      unfold save_working_proxies
      simp
    have hempty : (!p.isEmpty) = true := by
      cases p with
      | nil => exact absurd rfl hne
      | cons a l => rfl
    show ((splitOnChar '\n' (save_working_proxies (p :: ps))).map pyStrip).filter
        (fun l => !l.isEmpty) = p :: ps
    rw [hsave, splitOnChar_append_cons '\n' p _ hnl]
    simp only [List.map_cons, hstrip, List.filter_cons, hempty, if_true]
    exact congrArg (p :: ·) hps

/-- Counterexample to C9 as stated: the proxy `" a"` is a non-empty
string without embedded newlines, yet Save-then-Load yields `"a"` — the
loader strips each line, so the round-trip is not set-equal. -/
theorem save_load_counterexample :
    (" a".toList ≠ [] ∧ '\n' ∉ " a".toList) ∧
    load_saved_proxies (some (save_working_proxies [" a".toList])) = ["a".toList] ∧
    " a".toList ∉ load_saved_proxies (some (save_working_proxies [" a".toList])) := by
  decide

/-- C9 (amended): for every list of proxy addresses, each non-empty,
fixed by strip (no leading/trailing whitespace), and free of embedded
newlines and carriage returns, Save to a path followed by Load yields a
set-equal list (here: the same list); and Load of a missing file yields
the empty list without raising. -/
theorem save_load_spec (proxies : List (List Char))
    (h : ∀ p ∈ proxies, p ≠ [] ∧ pyStrip p = p ∧ '\n' ∉ p ∧ '\r' ∉ p) :
    (∀ p, p ∈ load_saved_proxies (some (save_working_proxies proxies)) ↔ p ∈ proxies) ∧
    load_saved_proxies Option.none = [] := by
  have hr := load_save_roundtrip proxies
    (fun q hq => ⟨(h q hq).1, (h q hq).2.1, (h q hq).2.2.1⟩)
  rw [hr]
  exact ⟨fun p => Iff.rfl, rfl⟩

/-- Witness for the amended C9 on a one-address list. -/
theorem save_load_spec_witness :
    (∀ p ∈ (["1.2.3.4:80".toList] : List (List Char)),
      p ≠ [] ∧ pyStrip p = p ∧ '\n' ∉ p ∧ '\r' ∉ p) ∧
    ((∀ p, p ∈ load_saved_proxies (some (save_working_proxies ["1.2.3.4:80".toList])) ↔
      p ∈ (["1.2.3.4:80".toList] : List (List Char))) ∧
     load_saved_proxies Option.none = []) :=
  ⟨by decide, save_load_spec _ (by decide)⟩

/-- Counterexample to C8 as stated: the plain-list parser keeps the line
`notaproxy:hello`, which has no numeric port in [1, 65535] (per the
spec-modelled address invariant) — the parser performs no port
validation. -/
theorem scrape_plain_counterexample :
    "notaproxy:hello".toList ∈
      scrape_proxies_from_plain (some "notaproxy:hello\n1.2.3.4:80\n".toList) ∧
    specValidProxyAddress "notaproxy:hello".toList = false := by
  decide

/-- C8 (amended): every address produced by the plain-list parser is a
non-empty stripped line containing a colon, and every table-parser entry
contains the colon joining its first two cells; no host or port-range
validation is performed; and a failed source contributes zero addresses
instead of failing the scrape. -/
theorem scrape_parsers_spec (body : Option (List Char))
    (table : Option (List (List (List Char)))) :
    (∀ e ∈ scrape_proxies_from_plain body, e ≠ [] ∧ ':' ∈ e) ∧
    scrape_proxies_from_plain Option.none = [] ∧
    (∀ e ∈ scrape_proxies_from_html table, ':' ∈ e) ∧
    scrape_proxies_from_html Option.none = [] := by
  refine ⟨?_, rfl, ?_, rfl⟩
  · intro e he
    cases body with
    | none => simp [scrape_proxies_from_plain] at he
    | some content =>
      unfold scrape_proxies_from_plain at he
      rw [List.mem_filter] at he
      obtain ⟨hmem, hcond⟩ := he
      rw [Bool.and_eq_true] at hcond
      obtain ⟨hne, hmemc⟩ := hcond
      refine ⟨?_, of_decide_eq_true hmemc⟩
      intro hnil
      rw [hnil] at hne
      simp at hne
  · intro e he
    cases table with
    | none => simp [scrape_proxies_from_html] at he
    | some rows =>
      unfold scrape_proxies_from_html at he
      rw [List.mem_filterMap] at he
      obtain ⟨cols, hmem, hsome⟩ := he
      cases cols with
      | nil => exact Option.noConfusion hsome
      | cons c0 tl =>
        cases tl with
        | nil => exact Option.noConfusion hsome
        | cons c1 tl2 =>
          injection hsome with he2
          rw [← he2]
          simp

/-- Witness for the amended C8: a well-formed line is kept and contains a
colon. -/
theorem scrape_parsers_spec_witness :
    "1.2.3.4:80".toList ∈ scrape_proxies_from_plain (some "1.2.3.4:80\n".toList) ∧
    ("1.2.3.4:80".toList ≠ [] ∧ ':' ∈ "1.2.3.4:80".toList) :=
  ⟨by decide,
    (scrape_parsers_spec (some "1.2.3.4:80\n".toList) Option.none).1
      "1.2.3.4:80".toList (by decide)⟩
